import Mathlib

/-!
# react-native-copilot: the step controller and the overlay presenter

A shallow embedding of `src/hocs/copilot.js` (the `Copilot` component: step
registry, current step, visibility, `start`/`stop`/`next`/`prev`) and of the
geometry of `src/components/CopilotModal.js` (`_animateMove`).

Modelling conventions.

* JavaScript numbers are exact rationals (`ℚ`).
* A JavaScript object used as a string-keyed map is the list of its own
  enumerable entries, in enumeration order; keys are pairwise distinct in every
  object the program can build (`Registry.WF`). Step names are taken to be
  ordinary property names: not array indices, which enumerate first, and not
  names `Object.prototype` defines.
* `===` on steps is equality of the step values.
* `this.setState(...)` is applied at once, and an awaited promise of the host
  framework (`setVisibility`, a measurement, the modal's `animateMove`) resolves.
* Everything a method does to the outside (events of the emitter, `scrollTo`,
  timers, frame callbacks, the request to the modal) is appended to a log kept
  next to the component's state, in the order the method's statements ask for
  it; a measurement callback runs where the measurement is asked for.
-/

namespace RNCopilot

/-! ## Values -/

/-- Modelled from the spec: the `Step` type of `types.js`, a named descriptor of
one highlighted target plus its explanatory content. Its `wrapper` and `target`
handles are represented by what the host measures for the step (`Host`). -/
structure Step where
  name : String
  text : String
deriving DecidableEq, Repr

/-- Flow's `?Step`: a step object, `null` or `undefined`. -/
inductive MaybeStep where
  | null
  | undefined
  | obj (step : Step)
deriving DecidableEq, Repr

/-- JavaScript truthiness of a `?Step`. -/
def MaybeStep.truthy : MaybeStep → Bool
  | .obj _ => true
  | _ => false

/-- The object `steps: { [string]: Step }`. -/
abbrev Registry := List (String × Step)

/-- Property read `steps[key]` (own properties). -/
def Registry.get (steps : Registry) (key : String) : MaybeStep :=
  match steps.lookup key with
  | some step => .obj step
  | none => .undefined

/-- Property write `obj[key] = val`: an existing key keeps its place and takes
the new value, a new key is added last. -/
def objSet : Registry → String → Step → Registry
  | [], key, val => [(key, val)]
  | (k, v) :: rest, key, val =>
    if k = key then (key, val) :: rest else (k, v) :: objSet rest key val

/-- Keys of a JavaScript object are pairwise distinct. -/
def Registry.WF (steps : Registry) : Prop := (steps.map Prod.fst).Nodup

instance (steps : Registry) : Decidable steps.WF :=
  inferInstanceAs (Decidable (steps.map Prod.fst).Nodup)

/-- The measured layout `(x, y, w, h)` handed to a `measureLayout` callback. -/
structure Measured where
  x : ℚ
  y : ℚ
  w : ℚ
  h : ℚ
deriving DecidableEq

/-- The size object a target's `measure()` resolves to. -/
structure Size where
  x : ℚ
  y : ℚ
  width : ℚ
  height : ℚ
deriving DecidableEq

/-- The rectangle passed to the modal's `animateMove`. -/
structure Rect where
  left : ℚ
  top : ℚ
  width : ℚ
  height : ℚ
deriving DecidableEq

/-- What the controller uses but `src/` does not define: the functions of
`utilities.js`, the host's measurements, `OFFSET_WIDTH` of `style.js` and the
`verticalOffset` option of the `copilot(...)` call. -/
structure Host where
  getFirstStep : Registry → MaybeStep
  getLastStep : Registry → MaybeStep
  getPrevStep : Registry → MaybeStep → MaybeStep
  getNextStep : Registry → MaybeStep → MaybeStep
  measureLayout : Step → Measured
  measure : Step → Size
  OFFSET_WIDTH : ℚ
  verticalOffset : ℚ

/-- What a method call does to the outside, in the order it happens. -/
inductive Effect where
  | emitStart
  | emitStop
  | emitStepChange (step : MaybeStep) (isLastStep isFirstStep : Bool)
  | scrollTo (y : ℚ)
  | setTimeout (move : Bool) (delay : Nat)
  | requestAnimationFrame (fromStep : Option String)
  | animateMove (rect : Rect)
deriving DecidableEq

/-- The events of the emitter. -/
inductive Event where
  | start
  | stop
  | stepChange (step : MaybeStep) (isLastStep isFirstStep : Bool)
deriving DecidableEq

/-- The emitter events of a log, in order. -/
def events : List Effect → List Event
  | [] => []
  | .emitStart :: rest => .start :: events rest
  | .emitStop :: rest => .stop :: events rest
  | .emitStepChange s l f :: rest => .stepChange s l f :: events rest
  | _ :: rest => events rest

/-! ## The component -/

/-- The `Copilot` instance: `this.state` (`steps`, `currentStep`, `visible`,
`scrollView`), the instance fields `startTries` and `mounted`, and the log. -/
structure Copilot where
  steps : Registry
  currentStep : MaybeStep
  visible : Bool
  scrollView : Option Nat
  startTries : Nat
  mounted : Bool
  log : List Effect
deriving DecidableEq

/-- A settled `async` call: the instance it leaves and whether the promise was
rejected (a `TypeError` from reading a property of `null`/`undefined`). -/
structure Settled where
  copilot : Copilot
  rejected : Bool
deriving DecidableEq

def MAX_START_TRIES : Nat := 120

/-- The class field initialisers: `state = { steps: {}, currentStep: null,
visible: false, scrollView: null }`, `startTries = 0`, `mounted = false`. -/
def init : Copilot :=
  { steps := [], currentStep := .null, visible := false, scrollView := none,
    startTries := 0, mounted := false, log := [] }

def componentDidMount (c : Copilot) : Copilot := { c with mounted := true }

def componentWillUnmount (c : Copilot) : Copilot := { c with mounted := false }

def emit (c : Copilot) (e : Effect) : Copilot := { c with log := c.log ++ [e] }

/-- `isFirstStep = () => this.state.currentStep === this.getFirstStep()`. -/
def isFirstStep (host : Host) (c : Copilot) : Bool :=
  decide (c.currentStep = host.getFirstStep c.steps)

/-- `isLastStep = () => this.state.currentStep === this.getLastStep()`. -/
def isLastStep (host : Host) (c : Copilot) : Bool :=
  decide (c.currentStep = host.getLastStep c.steps)

/-- `const yOffsett = y > 0 ? y - (h / 2) : 0;` -/
def yOffsett (y h : ℚ) : ℚ := if y > 0 then y - h / 2 else 0

/-- The method `moveToCurrentStep`: measure the current target and ask the modal
to move to the rectangle enlarged by `OFFSET_WIDTH`. Reading `.target` of a
current step that is no object rejects. -/
def moveToCurrentStep (host : Host) (c : Copilot) : Settled :=
  match c.currentStep with
  | .obj step =>
    let size := host.measure step
    { copilot := emit c (.animateMove
        { width := size.width + host.OFFSET_WIDTH,
          height := size.height + host.OFFSET_WIDTH,
          left := size.x - host.OFFSET_WIDTH / 2,
          top := (size.y - host.OFFSET_WIDTH / 2) + host.verticalOffset }),
      rejected := false }
  | _ => { copilot := c, rejected := true }

/-- The method `setCurrentStep(step, move)`, up to the timer it sets: the
callback of the timer (`if (move) this.moveToCurrentStep()`) runs later and is
logged as `setTimeout move delay`. Callers that omit `move` pass its default,
`true`. -/
def setCurrentStep (host : Host) (c : Copilot) (step : MaybeStep) (move : Bool) : Settled :=
  let c1 := { c with currentStep := step }
  let c2 := emit c1 (.emitStepChange step (isLastStep host c1) (isFirstStep host c1))
  match c2.scrollView with
  | some _ =>
    match c2.currentStep with
    | .obj cur =>
      let m := host.measureLayout cur
      let c3 := emit c2 (.scrollTo (yOffsett m.y m.h))
      { copilot := emit c3 (.setTimeout move 100), rejected := false }
    | _ => { copilot := c2, rejected := true }
  | none => { copilot := emit c2 (.setTimeout move 0), rejected := false }

/-- `setVisibility(visible)`. -/
def setVisibility (c : Copilot) (visible : Bool) : Copilot := { c with visible := visible }

/-- `registerStep(step)`: `steps: { ...steps, [step.name]: step }`. -/
def registerStep (c : Copilot) (step : Step) : Copilot :=
  { c with steps := objSet c.steps step.name step }

/-- `unregisterStep(stepName)`: nothing when not mounted; otherwise the entries
whose key differs from `stepName`, assigned one by one to a fresh object. -/
def unregisterStep (c : Copilot) (stepName : String) : Copilot :=
  if !c.mounted then c
  else
    let kept := c.steps.filter (fun e => e.1 != stepName)
    { c with steps := kept.foldl (fun obj e => objSet obj e.1 e.2) [] }

/-- `next()`: `await this.setCurrentStep(this.getNextStep())`. -/
def next (host : Host) (c : Copilot) : Settled :=
  setCurrentStep host c (host.getNextStep c.steps c.currentStep) true

/-- `prev()`: `await this.setCurrentStep(this.getPrevStep())`. -/
def prev (host : Host) (c : Copilot) : Settled :=
  setCurrentStep host c (host.getPrevStep c.steps c.currentStep) true

/-- The step `start` resolves: `fromStep ? steps[fromStep] : this.getFirstStep()`.
An absent or empty name is falsy. -/
def resolveStep (host : Host) (c : Copilot) (fromStep : Option String) : MaybeStep :=
  match fromStep with
  | some name => if name ≠ "" then c.steps.get name else host.getFirstStep c.steps
  | none => host.getFirstStep c.steps

/-- One invocation of `start(fromStep, scrollView)`. A retry is the logged
`requestAnimationFrame fromStep`, whose callback is `this.start(fromStep)`. -/
def start (host : Host) (c : Copilot) (fromStep : Option String) (scrollView : Option Nat) :
    Settled :=
  let c1 := if c.scrollView.isNone then { c with scrollView := scrollView } else c
  let currentStep := resolveStep host c fromStep
  if c1.startTries > MAX_START_TRIES then
    { copilot := { c1 with startTries := 0 }, rejected := false }
  else
    match currentStep with
    | .obj step =>
      let c2 := emit c1 .emitStart
      let c3 := setVisibility c2 true
      let r4 := setCurrentStep host c3 (.obj step) true
      if r4.rejected then r4
      else
        let r5 := moveToCurrentStep host r4.copilot
        if r5.rejected then r5
        else { copilot := { r5.copilot with startTries := 0 }, rejected := false }
    | _ =>
      let c2 := { c1 with startTries := c1.startTries + 1 }
      { copilot := emit c2 (.requestAnimationFrame fromStep), rejected := false }

/-- `stop()`: emit `stop`, then `setVisibility(false)`. -/
def stop (c : Copilot) : Copilot := setVisibility (emit c .emitStop) false

/-- A run of `start` over the frames: the instance each invocation was entered
with, in order, and what the last invocation settled to. -/
structure Frames where
  entries : List Copilot
  settled : Settled

/-- The frames of a `start` call: the invocation, then, while the invocation
just made asked for a frame callback, the callback `this.start(fromStep)` on
the next frame. `none` when the fuel does not cover the frames. -/
def startFrames (host : Host) :
    Nat → Copilot → Option String → Option Nat → Option Frames
  | 0, _, _, _ => none
  | fuel + 1, c, fromStep, scrollView =>
    let r := start host c fromStep scrollView
    match r.copilot.log.drop c.log.length with
    | [.requestAnimationFrame name] =>
      match startFrames host fuel r.copilot name none with
      | some run => some { run with entries := c :: run.entries }
      | none => none
    | _ => some { entries := [c], settled := r }

/-- Whether an invocation entered with this instance passes the guard
`if (this.startTries > MAX_START_TRIES) { this.startTries = 0; return; }`. -/
def passesGuard (c : Copilot) : Bool := !decide (c.startTries > MAX_START_TRIES)

/-- The retries of a run: the invocations after the first that pass the guard
and so look for the step again. An invocation that does not pass it is an
aborting one. -/
def Frames.retries (run : Frames) : Nat := (run.entries.tail.filter passesGuard).length

/-! ## Utilities, for concrete runs -/

/-- Modelled from the spec: `getFirstStep` of `utilities.js`, the step with the
lowest ordinal, the ordinal being derived from registration order; nothing for
an empty registry. -/
def getFirstStep (steps : Registry) : MaybeStep :=
  match steps with
  | [] => .null
  | (_, step) :: _ => .obj step

/-- Modelled from the spec: `getLastStep` of `utilities.js`, the step with the
highest ordinal; nothing for an empty registry. -/
def getLastStep (steps : Registry) : MaybeStep :=
  match steps.getLast? with
  | none => .null
  | some (_, step) => .obj step

/-- Modelled from the spec: `getNextStep` of `utilities.js`, the neighbour of
`step` by ordinal; nothing at the boundary. -/
def getNextStep (steps : Registry) (step : MaybeStep) : MaybeStep :=
  match (steps.map Prod.snd).dropWhile (fun s => decide (MaybeStep.obj s ≠ step)) with
  | _ :: n :: _ => .obj n
  | _ => .undefined

/-- Modelled from the spec: `getPrevStep` of `utilities.js`, the neighbour of
`step` by ordinal; nothing at the boundary. -/
def getPrevStep (steps : Registry) (step : MaybeStep) : MaybeStep :=
  match ((steps.map Prod.snd).takeWhile (fun s => decide (MaybeStep.obj s ≠ step))).getLast? with
  | some p => if (steps.map Prod.snd).any (fun s => decide (MaybeStep.obj s = step)) then .obj p
    else .undefined
  | none => .undefined

/-- A host for concrete runs: the utilities above, every wrapper measured at
`(0, y, 0, h)`, every target at the origin with no extent. -/
def testHost (y h : ℚ) : Host :=
  { getFirstStep := getFirstStep
    getLastStep := getLastStep
    getPrevStep := getPrevStep
    getNextStep := getNextStep
    measureLayout := fun _ => { x := 0, y := y, w := 0, h := h }
    measure := fun _ => { x := 0, y := 0, width := 0, height := 0 }
    OFFSET_WIDTH := 4
    verticalOffset := 0 }

/-- The host `host` with every nothing its lookups return replaced by `nothing`
(`null` or `undefined`). -/
def withNothing (host : Host) (nothing : MaybeStep) : Host :=
  { host with
    getPrevStep := fun steps step =>
      match host.getPrevStep steps step with
      | .obj p => .obj p
      | _ => nothing
    getNextStep := fun steps step =>
      match host.getNextStep steps step with
      | .obj n => .obj n
      | _ => nothing }

def stepA : Step := { name := "a", text := "first" }

def stepB : Step := { name := "b", text := "second" }

def stepC : Step := { name := "c", text := "third" }

/-- The mounted component after `a`, `b`, `c` registered in that order. -/
def registeredABC : Copilot :=
  componentDidMount (registerStep (registerStep (registerStep init stepA) stepB) stepC)

/-- The tour after `start()` with no arguments on `registeredABC`. -/
def tourAtA : Copilot := (start (testHost 0 0) registeredABC none none).copilot

/-- The tour after `start()` and two `next()` calls. -/
def tourAtC : Copilot :=
  (next (testHost 0 0) (next (testHost 0 0) tourAtA).copilot).copilot

/-! ## The overlay presenter -/

/-- The layout of the modal's container, as `measure()` resolves it. -/
structure Layout where
  width : ℚ
  height : ℚ
deriving DecidableEq

/-- What `_animateMove` reads besides its argument and the layout: `MARGIN` of
`style.js`, `Platform.OS`, `StatusBar.currentHeight` and the prop
`androidStatusBarVisible`. -/
structure ModalEnv where
  MARGIN : ℚ
  OS : String
  statusBarCurrentHeight : ℚ
  androidStatusBarVisible : Bool

/-- The `tooltip` style object; an absent key is `none`. -/
structure Tooltip where
  top : Option ℚ
  bottom : Option ℚ
  left : Option ℚ
  right : Option ℚ
deriving DecidableEq

inductive VerticalPosition where
  | bottom
  | top
deriving DecidableEq

inductive HorizontalPosition where
  | left
  | right
deriving DecidableEq

/-- The argument after `obj.top -= StatusBar.currentHeight`, done when the
status bar is not part of the layout on Android. -/
def adjust (env : ModalEnv) (obj : Rect) : Rect :=
  if !env.androidStatusBarVisible && env.OS == "android" then
    { obj with top := obj.top - env.statusBarCurrentHeight }
  else obj

/-- `center.x = obj.left + (obj.width / 2)`. -/
def centerX (obj : Rect) : ℚ := obj.left + obj.width / 2

/-- `center.y = obj.top + (obj.height / 2)`. -/
def centerY (obj : Rect) : ℚ := obj.top + obj.height / 2

def relativeToLeft (obj : Rect) : ℚ := centerX obj

def relativeToTop (obj : Rect) : ℚ := centerY obj

def relativeToBottom (layout : Layout) (obj : Rect) : ℚ := |centerY obj - layout.height|

def relativeToRight (layout : Layout) (obj : Rect) : ℚ := |centerX obj - layout.width|

/-- `relativeToBottom > relativeToTop ? 'bottom' : 'top'`. -/
def verticalPosition (layout : Layout) (obj : Rect) : VerticalPosition :=
  if relativeToBottom layout obj > relativeToTop obj then .bottom else .top

/-- `relativeToLeft > relativeToRight ? 'left' : 'right'`. -/
def horizontalPosition (layout : Layout) (obj : Rect) : HorizontalPosition :=
  if relativeToLeft obj > relativeToRight layout obj then .left else .right

/-- The tooltip offsets `_animateMove` builds for the (adjusted) rectangle. -/
def tooltipFor (env : ModalEnv) (layout : Layout) (obj : Rect) : Tooltip :=
  let t0 : Tooltip := { top := none, bottom := none, left := none, right := none }
  let t1 : Tooltip :=
    if verticalPosition layout obj = .bottom then
      { t0 with top := some (obj.top + obj.height + env.MARGIN) }
    else
      { t0 with bottom := some (layout.height - (obj.top - env.MARGIN)) }
  if horizontalPosition layout obj = .left then
    let right := max (layout.width - (obj.left + obj.width)) 0
    { t1 with right := some (if right = 0 then right + env.MARGIN else right) }
  else
    let left := max obj.left 0
    { t1 with left := some (if left = 0 then left + env.MARGIN else left) }

/-- The state `_animateMove` sets, with the value the animated `top` is driven to. -/
structure ModalState where
  tooltip : Tooltip
  layout : Layout
  size : ℚ × ℚ
  position : ℤ × ℤ
  animatedTop : ℚ
deriving DecidableEq

/-- The method `_animateMove(obj)` of `CopilotModal`, given the layout its
`measure()` resolved to. -/
def _animateMove (env : ModalEnv) (layout : Layout) (obj : Rect) : ModalState :=
  let obj := adjust env obj
  { tooltip := tooltipFor env layout obj
    layout := layout
    size := (obj.width, obj.height)
    position := (⌊max obj.left 0⌋, ⌊max obj.top 0⌋)
    animatedTop := obj.top }


/-! ## Registry lemmas -/

theorem lookup_cons_if (k k0 : String) (v0 : Step) (rest : Registry) :
    List.lookup k ((k0, v0) :: rest) = if k = k0 then some v0 else List.lookup k rest := by
  by_cases h : k = k0
  · subst h
    simp [List.lookup]
  · have hb : (k == k0) = false := by simpa using h
    simp only [List.lookup, hb, if_neg h]

theorem lookup_objSet (steps : Registry) (key : String) (val : Step) (k : String) :
    List.lookup k (objSet steps key val) = if k = key then some val else List.lookup k steps := by
  induction steps with
  | nil =>
    simp only [objSet, lookup_cons_if]
  | cons e rest ih =>
    obtain ⟨k0, v0⟩ := e
    by_cases h0 : k0 = key
    · subst h0
      simp only [objSet, if_true, lookup_cons_if]
      split <;> rfl
    · simp only [objSet, h0, if_false, lookup_cons_if, ih]
      by_cases hk0 : k = k0
      · have hk : ¬ k = key := fun h => h0 (hk0 ▸ h)
        simp [hk0, h0]
      · simp [hk0]

theorem get_objSet (steps : Registry) (key : String) (val : Step) (k : String) :
    Registry.get (objSet steps key val) k = if k = key then .obj val else Registry.get steps k := by
  unfold Registry.get
  rw [lookup_objSet]
  by_cases hk : k = key <;> simp [hk]

theorem length_objSet (steps : Registry) (key : String) (val : Step) :
    (objSet steps key val).length =
      if (List.lookup key steps).isSome then steps.length else steps.length + 1 := by
  induction steps with
  | nil => simp [objSet]
  | cons e rest ih =>
    obtain ⟨k0, v0⟩ := e
    by_cases h0 : k0 = key
    · subst h0
      simp [objSet, lookup_cons_if]
    · have h1 : ¬ key = k0 := fun h => h0 h.symm
      simp only [objSet, h0, if_false, List.length_cons, ih, lookup_cons_if, if_neg h1]
      split <;> rfl

theorem keys_objSet_mem (steps : Registry) (key : String) (val : Step) (k : String) :
    k ∈ (objSet steps key val).map Prod.fst ↔ k = key ∨ k ∈ steps.map Prod.fst := by
  induction steps with
  | nil => simp [objSet]
  | cons e rest ih =>
    obtain ⟨k0, v0⟩ := e
    by_cases h0 : k0 = key
    · subst h0
      simp [objSet]
    · simp only [objSet, h0, if_false, List.map_cons, List.mem_cons, ih]
      tauto

theorem objSet_wf (steps : Registry) (key : String) (val : Step) (h : steps.WF) :
    (objSet steps key val).WF := by
  induction steps with
  | nil => simp [objSet, Registry.WF]
  | cons e rest ih =>
    obtain ⟨k0, v0⟩ := e
    have hn : k0 ∉ rest.map Prod.fst ∧ (rest.map Prod.fst).Nodup := by
      simpa [Registry.WF] using h
    by_cases h0 : k0 = key
    · subst h0
      simpa [objSet, Registry.WF] using hn
    · have hrest : (objSet rest key val).WF := ih hn.2
      have hmem : k0 ∉ (objSet rest key val).map Prod.fst := by
        rw [keys_objSet_mem]
        intro hc
        rcases hc with hc | hc
        · exact h0 hc
        · exact hn.1 hc
      simp only [objSet, h0, if_false, Registry.WF, List.map_cons, List.nodup_cons]
      exact ⟨hmem, hrest⟩

theorem objSet_fresh (acc : Registry) (key : String) (val : Step)
    (h : key ∉ acc.map Prod.fst) : objSet acc key val = acc ++ [(key, val)] := by
  induction acc with
  | nil => rfl
  | cons e rest ih =>
    obtain ⟨k0, v0⟩ := e
    have h0 : ¬ k0 = key := fun hc => h (by simp [hc])
    have hr : key ∉ rest.map Prod.fst := fun hc => h (by simp [hc])
    simp [objSet, h0, ih hr]

theorem foldl_objSet (rest acc : Registry) (h : Registry.WF (acc ++ rest)) :
    rest.foldl (fun obj e => objSet obj e.1 e.2) acc = acc ++ rest := by
  induction rest generalizing acc with
  | nil => simp
  | cons e rest ih =>
    have hnd : (acc.map Prod.fst ++ e.1 :: rest.map Prod.fst).Nodup := by
      simpa [Registry.WF] using h
    have hfresh : e.1 ∉ acc.map Prod.fst := by
      intro hc
      have hdis := (List.nodup_append.1 hnd).2.2
      exact hdis hc (List.mem_cons_self _ _)
    have hstep : objSet acc e.1 e.2 = acc ++ [e] := objSet_fresh acc e.1 e.2 hfresh
    have hwf : Registry.WF ((acc ++ [e]) ++ rest) := by
      simpa [List.append_assoc] using h
    simp only [List.foldl_cons, hstep]
    rw [ih (acc ++ [e]) hwf]
    simp

theorem filter_wf (steps : Registry) (p : String × Step → Bool) (h : steps.WF) :
    Registry.WF (steps.filter p) := by
  unfold Registry.WF at *
  exact List.Nodup.sublist ((List.filter_sublist steps).map Prod.fst) h

theorem lookup_filter_ne (steps : Registry) (name k : String) :
    List.lookup k (steps.filter (fun e => e.1 != name)) =
      if k = name then none else List.lookup k steps := by
  induction steps with
  | nil => simp
  | cons e rest ih =>
    obtain ⟨k0, v0⟩ := e
    by_cases h0 : k0 = name
    · have hp : (k0 != name) = false := by simp [h0]
      rw [List.filter_cons, if_neg (by simp [hp]), ih, lookup_cons_if]
      by_cases hk : k = name
      · rw [if_pos hk, if_pos hk]
      · have hne : ¬ k = k0 := fun h => hk (h.trans h0)
        rw [if_neg hk, if_neg hk, if_neg hne]
    · have hp : (k0 != name) = true := by simp [h0]
      rw [List.filter_cons, if_pos hp, lookup_cons_if, lookup_cons_if, ih]
      by_cases hk0 : k = k0
      · have hk : ¬ k = name := fun h => h0 (hk0 ▸ h)
        rw [if_pos hk0, if_neg hk, if_pos hk0]
      · rw [if_neg hk0, if_neg hk0]

theorem registry_wf_invariant (c : Copilot) (h : c.steps.WF) (s : Step) (n : String) :
    init.steps.WF ∧ (registerStep c s).steps.WF ∧ (unregisterStep c n).steps.WF := by
  refine ⟨by simp [init, Registry.WF], objSet_wf c.steps s.name s h, ?_⟩
  unfold unregisterStep
  by_cases hm : c.mounted = true
  · have hf := filter_wf c.steps (fun e => e.1 != n) h
    have hfold := foldl_objSet (c.steps.filter (fun e => e.1 != n)) [] (by simpa using hf)
    simp only [hm, Bool.not_true, Bool.false_eq_true, if_false, hfold, List.nil_append]
    exact hf
  · simpa [hm] using h

theorem events_append (l₁ l₂ : List Effect) : events (l₁ ++ l₂) = events l₁ ++ events l₂ := by
  induction l₁ with
  | nil => rfl
  | cons e rest ih => cases e <;> simp [events, ih]

/-! ## Controller lemmas -/

theorem setCurrentStep_state (host : Host) (c : Copilot) (step : MaybeStep) (move : Bool) :
    (setCurrentStep host c step move).copilot.currentStep = step ∧
    (setCurrentStep host c step move).copilot.steps = c.steps ∧
    (setCurrentStep host c step move).copilot.visible = c.visible ∧
    (setCurrentStep host c step move).copilot.startTries = c.startTries ∧
    (setCurrentStep host c step move).copilot.mounted = c.mounted ∧
    (setCurrentStep host c step move).copilot.scrollView = c.scrollView := by
  unfold setCurrentStep
  cases hsv : c.scrollView with
  | none => simp [emit, hsv]
  | some sv => cases step <;> simp [emit, hsv]

theorem setCurrentStep_events (host : Host) (c : Copilot) (step : MaybeStep) (move : Bool) :
    events (setCurrentStep host c step move).copilot.log =
      events c.log ++
        [.stepChange step (isLastStep host { c with currentStep := step })
          (isFirstStep host { c with currentStep := step })] := by
  unfold setCurrentStep
  cases hsv : c.scrollView with
  | none => simp [emit, hsv, events_append, events]
  | some sv => cases step <;> simp [emit, hsv, events_append, events]

theorem moveToCurrentStep_obj (host : Host) (c : Copilot) (step : Step)
    (h : c.currentStep = .obj step) :
    (moveToCurrentStep host c).rejected = false ∧
    (moveToCurrentStep host c).copilot.currentStep = c.currentStep ∧
    (moveToCurrentStep host c).copilot.visible = c.visible ∧
    events (moveToCurrentStep host c).copilot.log = events c.log := by
  unfold moveToCurrentStep
  simp [h, emit, events_append, events]

theorem setCurrentStep_obj_resolved (host : Host) (c : Copilot) (step : Step) (move : Bool) :
    (setCurrentStep host c (.obj step) move).rejected = false := by
  unfold setCurrentStep
  cases hsv : c.scrollView <;> simp [emit, hsv]

/-! ## Claims -/

/-- C1, as the code has it: `next()` and `prev()` hand the result of the
neighbour lookup to `setCurrentStep` unguarded. When the lookup returns nothing
(`null` or `undefined`), the current step after the call is the value the lookup
returned, so it is no step, and when there was a current step before the call
it differs from that step; a `stepChange` event carrying the value has been
emitted; `steps`, `visible`, `startTries` and `mounted` are unchanged. -/
theorem next_prev_at_boundary (host : Host) (c : Copilot) :
    ((host.getNextStep c.steps c.currentStep).truthy = false →
      (next host c).copilot.currentStep = host.getNextStep c.steps c.currentStep ∧
      (next host c).copilot.currentStep.truthy = false ∧
      (c.currentStep.truthy = true → (next host c).copilot.currentStep ≠ c.currentStep) ∧
      (∃ l f, events (next host c).copilot.log =
        events c.log ++ [.stepChange (host.getNextStep c.steps c.currentStep) l f]) ∧
      (next host c).copilot.steps = c.steps ∧
      (next host c).copilot.visible = c.visible ∧
      (next host c).copilot.startTries = c.startTries ∧
      (next host c).copilot.mounted = c.mounted) ∧
    ((host.getPrevStep c.steps c.currentStep).truthy = false →
      (prev host c).copilot.currentStep = host.getPrevStep c.steps c.currentStep ∧
      (prev host c).copilot.currentStep.truthy = false ∧
      (c.currentStep.truthy = true → (prev host c).copilot.currentStep ≠ c.currentStep) ∧
      (∃ l f, events (prev host c).copilot.log =
        events c.log ++ [.stepChange (host.getPrevStep c.steps c.currentStep) l f]) ∧
      (prev host c).copilot.steps = c.steps ∧
      (prev host c).copilot.visible = c.visible ∧
      (prev host c).copilot.startTries = c.startTries ∧
      (prev host c).copilot.mounted = c.mounted) := by
  constructor
  · intro h
    have hs := setCurrentStep_state host c (host.getNextStep c.steps c.currentStep) true
    have he := setCurrentStep_events host c (host.getNextStep c.steps c.currentStep) true
    unfold next
    refine ⟨hs.1, ?_, ?_, ⟨_, _, he⟩, hs.2.1, hs.2.2.1, hs.2.2.2.1, hs.2.2.2.2.1⟩
    · rw [hs.1]
      exact h
    · intro hcur heq
      rw [hs.1] at heq
      rw [heq, hcur] at h
      exact absurd h (by decide)
  · intro h
    have hs := setCurrentStep_state host c (host.getPrevStep c.steps c.currentStep) true
    have he := setCurrentStep_events host c (host.getPrevStep c.steps c.currentStep) true
    unfold prev
    refine ⟨hs.1, ?_, ?_, ⟨_, _, he⟩, hs.2.1, hs.2.2.1, hs.2.2.2.1, hs.2.2.2.2.1⟩
    · rw [hs.1]
      exact h
    · intro hcur heq
      rw [hs.1] at heq
      rw [heq, hcur] at h
      exact absurd h (by decide)

/-- C1 fails on the code: with `a`, `b`, `c` registered, after `start()` and two
`next()` calls the current step is `c`. Whether the lookup of its next
neighbour returns `undefined` or `null`, the third `next()` leaves that value
as the current step, not `c`. Likewise `prev()` on the first step. -/
theorem next_at_last_step_drops_currentStep :
    tourAtC.currentStep = .obj stepC ∧
    ((testHost 0 0).getNextStep tourAtC.steps tourAtC.currentStep = .undefined ∧
      (next (testHost 0 0) tourAtC).copilot.currentStep = .undefined ∧
      (next (testHost 0 0) tourAtC).copilot.currentStep ≠ tourAtC.currentStep) ∧
    ((withNothing (testHost 0 0) .null).getNextStep tourAtC.steps tourAtC.currentStep = .null ∧
      (next (withNothing (testHost 0 0) .null) tourAtC).copilot.currentStep = .null ∧
      (next (withNothing (testHost 0 0) .null) tourAtC).copilot.currentStep ≠
        tourAtC.currentStep) ∧
    tourAtA.currentStep = .obj stepA ∧
    ((testHost 0 0).getPrevStep tourAtA.steps tourAtA.currentStep = .undefined ∧
      (prev (testHost 0 0) tourAtA).copilot.currentStep ≠ tourAtA.currentStep) ∧
    ((withNothing (testHost 0 0) .null).getPrevStep tourAtA.steps tourAtA.currentStep = .null ∧
      (prev (withNothing (testHost 0 0) .null) tourAtA).copilot.currentStep ≠
        tourAtA.currentStep) := by
  decide

/-- The amended C1 at the end of the tour `a`, `b`, `c`, for a lookup that
returns `undefined` at the boundary and for one that returns `null`. -/
theorem next_prev_at_boundary_witness :
    ((testHost 0 0).getNextStep tourAtC.steps tourAtC.currentStep).truthy = false ∧
    tourAtC.currentStep.truthy = true ∧
    (next (testHost 0 0) tourAtC).copilot.currentStep ≠ tourAtC.currentStep ∧
    (next (withNothing (testHost 0 0) .null) tourAtC).copilot.currentStep ≠
      tourAtC.currentStep ∧
    (prev (withNothing (testHost 0 0) .null) tourAtA).copilot.currentStep ≠
      tourAtA.currentStep :=
  ⟨by decide, by decide,
    ((next_prev_at_boundary (testHost 0 0) tourAtC).1 (by decide)).2.2.1 (by decide),
    ((next_prev_at_boundary (withNothing (testHost 0 0) .null) tourAtC).1
      (by decide)).2.2.1 (by decide),
    ((next_prev_at_boundary (withNothing (testHost 0 0) .null) tourAtA).2
      (by decide)).2.2.1 (by decide)⟩

/-- C3: when the step `start` resolves exists and the retry counter is at most
`MAX_START_TRIES`, the call is not rejected and ends with `visible = true`, the
resolved step as current step and the retry counter at 0; the events it emitted
are `start` and then `stepChange` with that step as payload. -/
theorem start_success (host : Host) (c : Copilot) (fromStep : Option String)
    (scrollView : Option Nat) (step : Step)
    (hstep : resolveStep host c fromStep = .obj step)
    (htries : c.startTries ≤ MAX_START_TRIES) :
    (start host c fromStep scrollView).rejected = false ∧
    (start host c fromStep scrollView).copilot.visible = true ∧
    (start host c fromStep scrollView).copilot.currentStep = .obj step ∧
    (start host c fromStep scrollView).copilot.startTries = 0 ∧
    ∃ l f, events (start host c fromStep scrollView).copilot.log =
      events c.log ++ [.start, .stepChange (.obj step) l f] := by
  have hgt : ∀ c1 : Copilot, c1.startTries = c.startTries →
      ¬ c1.startTries > MAX_START_TRIES := by
    intro c1 h1
    rw [h1]
    exact Nat.not_lt.2 htries
  -- the instance after the optional `setState({ scrollView })`
  generalize hc1 : (if c.scrollView.isNone then { c with scrollView := scrollView } else c) = c1
  have hc1tries : c1.startTries = c.startTries := by
    rw [← hc1]; split <;> rfl
  have hc1log : c1.log = c.log := by
    rw [← hc1]; split <;> rfl
  have hstart : start host c fromStep scrollView =
      (let r4 := setCurrentStep host (setVisibility (emit c1 .emitStart) true) (.obj step) true
       let r5 := moveToCurrentStep host r4.copilot
       { copilot := { r5.copilot with startTries := 0 }, rejected := false }) := by
    have hr4 := setCurrentStep_obj_resolved host (setVisibility (emit c1 .emitStart) true) step true
    have hs4 := setCurrentStep_state host (setVisibility (emit c1 .emitStart) true) (.obj step) true
    have hr5 := (moveToCurrentStep_obj host _ step hs4.1).1
    unfold start
    simp only [hc1, hstep, if_neg (hgt c1 hc1tries), hr4, hr5]
    simp
  rw [hstart]
  have hs4 := setCurrentStep_state host (setVisibility (emit c1 .emitStart) true) (.obj step) true
  have he4 : ∃ l f,
      events (setCurrentStep host (setVisibility (emit c1 .emitStart) true)
        (.obj step) true).copilot.log =
      events (setVisibility (emit c1 .emitStart) true).log ++ [.stepChange (.obj step) l f] :=
    ⟨_, _, setCurrentStep_events host (setVisibility (emit c1 .emitStart) true) (.obj step) true⟩
  obtain ⟨l, f, he4⟩ := he4
  have hm := moveToCurrentStep_obj host _ step hs4.1
  refine ⟨rfl, ?_, ?_, rfl, ?_⟩
  · show (moveToCurrentStep host _).copilot.visible = true
    rw [hm.2.2.1, hs4.2.2.1]
    rfl
  · show (moveToCurrentStep host _).copilot.currentStep = .obj step
    rw [hm.2.1, hs4.1]
  · refine ⟨l, f, ?_⟩
    show events (moveToCurrentStep host _).copilot.log = _
    rw [hm.2.2.2, he4]
    simp [setVisibility, emit, events_append, events, hc1log]

/-- C3 on the registry `a`, `b`, `c`, by default and by name. -/
theorem start_success_witness :
    (start (testHost 0 0) registeredABC none none).copilot.currentStep = .obj stepA ∧
    (start (testHost 0 0) registeredABC (some "b") none).copilot.currentStep = .obj stepB :=
  ⟨(start_success (testHost 0 0) registeredABC none none stepA (by decide) (by decide)).2.2.1,
    (start_success (testHost 0 0) registeredABC (some "b") none stepB
      (by decide) (by decide)).2.2.1⟩

/-- C4, as the code has it: from every state `stop()` emits `stop` and leaves
`visible = false`; the current step, the registry and the retry counter are
what they were, so the current step is `null` afterwards only if it was before. -/
theorem stop_effect (c : Copilot) :
    (stop c).visible = false ∧
    events (stop c).log = events c.log ++ [.stop] ∧
    (stop c).currentStep = c.currentStep ∧
    (stop c).steps = c.steps ∧
    (stop c).startTries = c.startTries := by
  simp [stop, setVisibility, emit, events_append, events]

/-- C4 fails on the code: `stop()` on the tour started on `a`, `b`, `c` leaves
`a` as the current step, not `null`. -/
theorem stop_keeps_currentStep :
    (stop tourAtA).visible = false ∧
    (stop tourAtA).currentStep = .obj stepA ∧
    (stop tourAtA).currentStep ≠ .null := by
  decide

/-- C5: after `registerStep(s)` the entry under `s.name` is `s` and the entry
under every other name is what it was; the number of entries is unchanged when
an entry named `s.name` existed and one more otherwise. Nothing else of the
instance changes. -/
theorem registerStep_spec (c : Copilot) (s : Step) :
    (∀ key, (registerStep c s).steps.get key =
      if key = s.name then .obj s else c.steps.get key) ∧
    (registerStep c s).steps.length =
      (if (c.steps.get s.name).truthy then c.steps.length else c.steps.length + 1) ∧
    (registerStep c s).currentStep = c.currentStep ∧
    (registerStep c s).visible = c.visible ∧
    (registerStep c s).log = c.log := by
  refine ⟨fun key => get_objSet c.steps s.name s key, ?_, rfl, rfl, rfl⟩
  show (objSet c.steps s.name s).length = _
  rw [length_objSet]
  unfold Registry.get
  cases List.lookup s.name c.steps <;> simp [MaybeStep.truthy]

/-- C6: on a mounted instance `unregisterStep(n)` leaves exactly the entries whose
key is not `n`, in their order, so there is no entry under `n` and the entry
under every other name is what it was; on an instance that is not mounted (a
fresh one, or one after `componentWillUnmount`) it changes nothing. -/
theorem unregisterStep_spec (c : Copilot) (n : String) (hwf : c.steps.WF) :
    (c.mounted = true →
      (unregisterStep c n).steps = c.steps.filter (fun e => e.1 != n) ∧
      (unregisterStep c n).steps.get n = .undefined ∧
      (∀ key, key ≠ n → (unregisterStep c n).steps.get key = c.steps.get key) ∧
      (unregisterStep c n).currentStep = c.currentStep ∧
      (unregisterStep c n).visible = c.visible ∧
      (unregisterStep c n).mounted = c.mounted ∧
      (unregisterStep c n).log = c.log) ∧
    (c.mounted = false → unregisterStep c n = c) ∧
    init.mounted = false ∧
    (componentDidMount c).mounted = true ∧
    (componentWillUnmount c).mounted = false := by
  refine ⟨?_, ?_, rfl, rfl, rfl⟩
  · intro hm
    have hsteps : (unregisterStep c n).steps = c.steps.filter (fun e => e.1 != n) := by
      unfold unregisterStep
      simp only [hm, Bool.not_true, Bool.false_eq_true, if_false]
      have h := foldl_objSet (c.steps.filter (fun e => e.1 != n)) []
        (by simpa using filter_wf c.steps _ hwf)
      simpa using h
    have hrest : (unregisterStep c n).currentStep = c.currentStep ∧
        (unregisterStep c n).visible = c.visible ∧
        (unregisterStep c n).mounted = c.mounted ∧
        (unregisterStep c n).log = c.log := by
      unfold unregisterStep
      simp [hm]
    refine ⟨hsteps, ?_, ?_, hrest⟩
    · rw [hsteps]
      unfold Registry.get
      rw [lookup_filter_ne]
      simp
    · intro key hkey
      rw [hsteps]
      unfold Registry.get
      rw [lookup_filter_ne, if_neg hkey]
  · intro hm
    unfold unregisterStep
    simp [hm]

/-- C6 on the registry `a`, `b`, `c`: unregistering `b` leaves `a` then `c`. -/
theorem unregisterStep_spec_witness :
    (unregisterStep registeredABC "b").steps = [("a", stepA), ("c", stepC)] ∧
    unregisterStep (componentWillUnmount registeredABC) "b" =
      componentWillUnmount registeredABC :=
  ⟨((unregisterStep_spec registeredABC "b" (by decide)).1 (by decide)).1.trans (by decide),
    (unregisterStep_spec (componentWillUnmount registeredABC) "b" (by decide)).2.1 (by decide)⟩

/-! ### The retry loop of `start` -/

theorem resolveStep_steps (host : Host) (c c1 : Copilot) (fromStep : Option String)
    (h : c1.steps = c.steps) : resolveStep host c1 fromStep = resolveStep host c fromStep := by
  unfold resolveStep
  rw [h]

theorem start_abort (host : Host) (c : Copilot) (fromStep : Option String)
    (scrollView : Option Nat) (h : c.startTries > MAX_START_TRIES) :
    (start host c fromStep scrollView).rejected = false ∧
    (start host c fromStep scrollView).copilot.log = c.log ∧
    (start host c fromStep scrollView).copilot.startTries = 0 ∧
    (start host c fromStep scrollView).copilot.visible = c.visible ∧
    (start host c fromStep scrollView).copilot.currentStep = c.currentStep ∧
    (start host c fromStep scrollView).copilot.steps = c.steps := by
  unfold start
  cases hsv : c.scrollView <;> simp [h]

theorem start_retry (host : Host) (c : Copilot) (fromStep : Option String)
    (scrollView : Option Nat) (h : c.startTries ≤ MAX_START_TRIES)
    (hn : (resolveStep host c fromStep).truthy = false) :
    (start host c fromStep scrollView).rejected = false ∧
    (start host c fromStep scrollView).copilot.log =
      c.log ++ [.requestAnimationFrame fromStep] ∧
    (start host c fromStep scrollView).copilot.startTries = c.startTries + 1 ∧
    (start host c fromStep scrollView).copilot.visible = c.visible ∧
    (start host c fromStep scrollView).copilot.currentStep = c.currentStep ∧
    (start host c fromStep scrollView).copilot.steps = c.steps := by
  have hle : ¬ c.startTries > MAX_START_TRIES := Nat.not_lt.2 h
  unfold start
  cases hr : resolveStep host c fromStep with
  | obj step => simp [hr, MaybeStep.truthy] at hn
  | null => cases hsv : c.scrollView <;> simp [hle, emit]
  | undefined => cases hsv : c.scrollView <;> simp [hle, emit]

theorem getLast_cons_of_some (c e : Copilot) (l : List Copilot)
    (h : l.getLast? = some e) : (c :: l).getLast? = some e := by
  cases l with
  | nil => simp at h
  | cons x rest => rw [List.getLast?_cons_cons]; exact h

theorem startFrames_unregistered (host : Host) (fromStep : Option String) (n : Nat) :
    ∀ (c : Copilot) (scrollView : Option Nat),
      (resolveStep host c fromStep).truthy = false →
      c.startTries + n = MAX_START_TRIES + 1 →
      ∀ k, ∃ run, startFrames host (n + 1 + k) c fromStep scrollView = some run ∧
        run.settled.rejected = false ∧
        run.entries.map (fun e => e.startTries) = List.range' c.startTries (n + 1) ∧
        run.settled.copilot.log =
          c.log ++ List.replicate n (.requestAnimationFrame fromStep) ∧
        run.settled.copilot.startTries = 0 ∧
        run.settled.copilot.visible = c.visible ∧
        run.settled.copilot.currentStep = c.currentStep ∧
        ∃ e, run.entries.getLast? = some e ∧
          passesGuard e = false ∧
          run.settled.copilot.log = e.log ∧
          run.settled.copilot.visible = e.visible ∧
          run.settled.copilot.currentStep = e.currentStep := by
  induction n with
  | zero =>
    intro c scrollView _ htries k
    have hgt : c.startTries > MAX_START_TRIES := by
      have : c.startTries = MAX_START_TRIES + 1 := by simpa using htries
      rw [this]
      exact Nat.lt_succ_self _
    have ha := start_abort host c fromStep scrollView hgt
    refine ⟨{ entries := [c], settled := start host c fromStep scrollView }, ?_, ha.1, ?_, ?_,
      ha.2.2.1, ha.2.2.2.1, ha.2.2.2.2.1, c, rfl, ?_, ha.2.1, ha.2.2.2.1, ha.2.2.2.2.1⟩
    · have hfuel : 0 + 1 + k = k + 1 := by omega
      rw [hfuel]
      simp only [startFrames, ha.2.1, List.drop_length]
    · simp
    · simpa using ha.2.1
    · simp [passesGuard, hgt]
  | succ n ih =>
    intro c scrollView hn htries k
    have hle : c.startTries ≤ MAX_START_TRIES := by omega
    have hr := start_retry host c fromStep scrollView hle hn
    have hn1 : (resolveStep host (start host c fromStep scrollView).copilot fromStep).truthy =
        false := by
      rw [resolveStep_steps host c _ fromStep hr.2.2.2.2.2]
      exact hn
    have htries1 : (start host c fromStep scrollView).copilot.startTries + n =
        MAX_START_TRIES + 1 := by
      rw [hr.2.2.1]
      omega
    obtain ⟨run, hrun, hrej, hent, hlog, hzero, hvis, hcur, e, hlast, habort, helog, hevis,
        hecur⟩ :=
      ih (start host c fromStep scrollView).copilot none hn1 htries1 k
    refine ⟨{ run with entries := c :: run.entries }, ?_, hrej, ?_, ?_, hzero, ?_, ?_,
      e, getLast_cons_of_some c e run.entries hlast, habort, helog, hevis, hecur⟩
    · have hfuel : n + 1 + 1 + k = (n + 1 + k) + 1 := by omega
      rw [hfuel]
      simp only [startFrames, hr.2.1, List.drop_left, hrun]
    · show (c :: run.entries).map (fun e => e.startTries) = _
      rw [List.map_cons, hent, hr.2.2.1]
      rfl
    · show run.settled.copilot.log = _
      rw [hlog, hr.2.1, List.replicate_succ]
      simp
    · show run.settled.copilot.visible = _
      rw [hvis, hr.2.2.2.1]
    · show run.settled.copilot.currentStep = _
      rw [hcur, hr.2.2.2.2.1]

theorem retries_of_counters (run : Frames) (counters : List Nat)
    (h : run.entries.map (fun e => e.startTries) = counters) :
    run.retries = (counters.tail.filter (fun t => !decide (t > MAX_START_TRIES))).length := by
  unfold Frames.retries
  rw [← h, ← List.map_tail, List.filter_map, List.length_map]
  rfl

/-- C2: a `start()` call entered with retry counter 0 whose step never resolves,
no other method running between the frames, ends once the fuel covers its 122
invocations, entered with the counter at 0, 1, ..., 121. The 120 invocations
after the first that find the counter at 1, ..., 120 are the retries: they pass
the guard and look for the step again, so at most 120 retries are made. The
last invocation finds the counter at 121 and is the aborting one: it emits no
event and asks for nothing, leaves `visible` and `currentStep` as it found
them, which is as the call found them, and leaves the counter at 0. -/
theorem start_unregistered_retries (host : Host) (c : Copilot) (fromStep : Option String)
    (scrollView : Option Nat) (fuel : Nat)
    (htries : c.startTries = 0)
    (hstep : (resolveStep host c fromStep).truthy = false)
    (hfuel : 122 ≤ fuel) :
    ∃ run, startFrames host fuel c fromStep scrollView = some run ∧
      run.entries.map (fun e => e.startTries) = List.range 122 ∧
      run.retries = 120 ∧
      run.retries ≤ MAX_START_TRIES ∧
      (∃ e, run.entries.getLast? = some e ∧
        passesGuard e = false ∧
        run.settled.copilot.log = e.log ∧
        run.settled.copilot.visible = e.visible ∧
        run.settled.copilot.currentStep = e.currentStep) ∧
      run.settled.rejected = false ∧
      events run.settled.copilot.log = events c.log ∧
      run.settled.copilot.startTries = 0 ∧
      run.settled.copilot.visible = c.visible ∧
      run.settled.copilot.currentStep = c.currentStep := by
  obtain ⟨k, hk⟩ : ∃ k, fuel = 121 + 1 + k := ⟨fuel - 122, by omega⟩
  obtain ⟨run, hrun, hrej, hent, hlog, hzero, hvis, hcur, hlast⟩ :=
    startFrames_unregistered host fromStep 121 c scrollView hstep
      (by rw [htries]; rfl) k
  have hcounters : run.entries.map (fun e => e.startTries) = List.range 122 := by
    rw [hent, htries, List.range_eq_range']
  have hretries : run.retries = 120 := by
    rw [retries_of_counters run _ hcounters]
    rfl
  refine ⟨run, by rw [hk]; exact hrun, hcounters, hretries, ?_, hlast, hrej, ?_, hzero, hvis,
    hcur⟩
  · rw [hretries]
    decide
  · rw [hlog, events_append]
    have hnone : ∀ m,
        events (List.replicate m (Effect.requestAnimationFrame fromStep)) = [] := by
      intro m
      induction m with
      | zero => rfl
      | succ m ihm => simp [List.replicate_succ, events, ihm]
    rw [hnone]
    simp

/-- C2 on a fresh instance with no step ever registered: `start()` makes 120
retries and then aborts with the counter back at 0. -/
theorem start_unregistered_retries_witness :
    ∃ run, startFrames (testHost 0 0) 122 init none none = some run ∧
      run.retries = 120 ∧ run.settled.copilot.startTries = 0 ∧
      run.settled.copilot.visible = false ∧ run.settled.copilot.currentStep = .null := by
  obtain ⟨run, hrun, _, hretries, _, _, _, _, hzero, hvis, hcur⟩ :=
    start_unregistered_retries (testHost 0 0) init none none 122
      (by decide) (by decide) (by decide)
  exact ⟨run, hrun, hretries, hzero, hvis, hcur⟩

/-! ### The overlay presenter -/

theorem adjust_horizontal (env : ModalEnv) (obj : Rect) :
    (adjust env obj).left = obj.left ∧ (adjust env obj).width = obj.width ∧
    (adjust env obj).height = obj.height := by
  unfold adjust
  split <;> simp

theorem tooltipFor_vertical (env : ModalEnv) (layout : Layout) (o : Rect) :
    (|o.top + o.height / 2 - layout.height| > o.top + o.height / 2 →
      (tooltipFor env layout o).top = some (o.top + o.height + env.MARGIN) ∧
      (tooltipFor env layout o).bottom = none) ∧
    (|o.top + o.height / 2 - layout.height| ≤ o.top + o.height / 2 →
      (tooltipFor env layout o).bottom = some (layout.height - (o.top - env.MARGIN)) ∧
      (tooltipFor env layout o).top = none) := by
  constructor
  · intro h
    have hv : verticalPosition layout o = .bottom := by
      simp only [verticalPosition, relativeToBottom, relativeToTop, centerY]
      rw [if_pos h]
    unfold tooltipFor
    simp only [hv]
    split <;> simp
  · intro h
    have hv : verticalPosition layout o = .top := by
      simp only [verticalPosition, relativeToBottom, relativeToTop, centerY]
      rw [if_neg (not_lt.2 h)]
    unfold tooltipFor
    simp only [hv]
    split <;> simp

theorem tooltipFor_horizontal (env : ModalEnv) (layout : Layout) (o : Rect) :
    (o.left + o.width / 2 ≤ |o.left + o.width / 2 - layout.width| →
      horizontalPosition layout o = .right ∧
      (tooltipFor env layout o).left =
        some (if max o.left 0 = 0 then max o.left 0 + env.MARGIN else max o.left 0) ∧
      (tooltipFor env layout o).right = none) ∧
    (o.left + o.width / 2 > |o.left + o.width / 2 - layout.width| →
      horizontalPosition layout o = .left ∧
      (tooltipFor env layout o).right =
        some (if max (layout.width - (o.left + o.width)) 0 = 0
          then max (layout.width - (o.left + o.width)) 0 + env.MARGIN
          else max (layout.width - (o.left + o.width)) 0) ∧
      (tooltipFor env layout o).left = none) := by
  constructor
  · intro h
    have hh : horizontalPosition layout o = .right := by
      simp only [horizontalPosition, relativeToLeft, relativeToRight, centerX]
      rw [if_neg (not_lt.2 h)]
    refine ⟨hh, ?_⟩
    unfold tooltipFor
    by_cases hv : verticalPosition layout o = .bottom <;> simp [hh, hv]
  · intro h
    have hh : horizontalPosition layout o = .left := by
      simp only [horizontalPosition, relativeToLeft, relativeToRight, centerX]
      rw [if_pos h]
    refine ⟨hh, ?_⟩
    unfold tooltipFor
    by_cases hv : verticalPosition layout o = .bottom <;> simp [hh, hv]

/-- C7, as the code has it: with `top` the rectangle's top after the status bar
adjustment and `center.y = top + height / 2`, the tooltip is anchored below the
target (`tooltip.top = top + height + MARGIN`, no `bottom`) exactly when the
centre is strictly farther from the container's bottom edge than from its top
edge, `|center.y - layout.height| > center.y`, and otherwise, the tie included,
above it (`tooltip.bottom = layout.height - (top - MARGIN)`, no `top`). -/
theorem vertical_anchor (env : ModalEnv) (layout : Layout) (obj : Rect) :
    (((_animateMove env layout obj).tooltip.top =
          some ((adjust env obj).top + obj.height + env.MARGIN) ∧
        (_animateMove env layout obj).tooltip.bottom = none) ↔
      |(adjust env obj).top + obj.height / 2 - layout.height| >
        (adjust env obj).top + obj.height / 2) ∧
    (((_animateMove env layout obj).tooltip.bottom =
          some (layout.height - ((adjust env obj).top - env.MARGIN)) ∧
        (_animateMove env layout obj).tooltip.top = none) ↔
      |(adjust env obj).top + obj.height / 2 - layout.height| ≤
        (adjust env obj).top + obj.height / 2) := by
  have hv := tooltipFor_vertical env layout (adjust env obj)
  rw [(adjust_horizontal env obj).2.2] at hv
  have ht : (_animateMove env layout obj).tooltip = tooltipFor env layout (adjust env obj) := rfl
  rw [ht]
  by_cases h : |(adjust env obj).top + obj.height / 2 - layout.height| >
      (adjust env obj).top + obj.height / 2
  · have h1 := hv.1 h
    refine ⟨⟨fun _ => h, fun _ => h1⟩, ⟨fun hb => ?_, fun hle => absurd h (not_lt.2 hle)⟩⟩
    rw [h1.2] at hb
    exact absurd hb.1 (by simp)
  · have h2 := hv.2 (not_lt.1 h)
    refine ⟨⟨fun ha => ?_, fun hgt => absurd hgt h⟩, ⟨fun _ => not_lt.1 h, fun _ => h2⟩⟩
    rw [h2.2] at ha
    exact absurd ha.1 (by simp)

/-- C7 fails on the code: in a container 100 high a target with `top = 80`,
`height = 10` has its centre at 85, strictly closer to the bottom edge
(distance 15) than to the top edge, and the tooltip is anchored above it; a
target with `top = 10`, `height = 10` has its centre strictly closer to the top
edge and the tooltip is anchored below it. -/
theorem vertical_anchor_reversed :
    (|((80 : ℚ) + 10 / 2) - 100| < 80 + 10 / 2 ∧
      (_animateMove ⟨10, "ios", 20, false⟩ ⟨100, 100⟩ ⟨0, 80, 100, 10⟩).tooltip.top = none ∧
      (_animateMove ⟨10, "ios", 20, false⟩ ⟨100, 100⟩ ⟨0, 80, 100, 10⟩).tooltip.bottom =
        some 30) ∧
    (¬ |((10 : ℚ) + 10 / 2) - 100| < 10 + 10 / 2 ∧
      (_animateMove ⟨10, "ios", 20, false⟩ ⟨100, 100⟩ ⟨0, 10, 100, 10⟩).tooltip.top =
        some 30 ∧
      (_animateMove ⟨10, "ios", 20, false⟩ ⟨100, 100⟩ ⟨0, 10, 100, 10⟩).tooltip.bottom =
        none) := by
  refine ⟨⟨by norm_num [abs_lt], ?_, ?_⟩, ⟨by norm_num [abs_lt], ?_, ?_⟩⟩ <;>
  · simp [_animateMove, tooltipFor, adjust, verticalPosition, horizontalPosition,
      relativeToBottom, relativeToTop, relativeToLeft, relativeToRight, centerX, centerY]
    try norm_num

/-- C8, as the code has it: with `center.x = left + width / 2`, the horizontal
anchor is `'right'` (the branch that sets `tooltip.left` and no `right`) exactly
when the centre is at least as close to the container's left edge as to its
right edge, `center.x <= |center.x - layout.width|`, and `'left'` (the branch
that sets `tooltip.right` and no `left`) exactly when it is strictly closer to
the right edge; a centre equidistant from both edges is classified `'right'`. -/
theorem horizontal_anchor (env : ModalEnv) (layout : Layout) (obj : Rect) :
    (horizontalPosition layout (adjust env obj) = .right ↔
      obj.left + obj.width / 2 ≤ |obj.left + obj.width / 2 - layout.width|) ∧
    (horizontalPosition layout (adjust env obj) = .left ↔
      obj.left + obj.width / 2 > |obj.left + obj.width / 2 - layout.width|) ∧
    (((_animateMove env layout obj).tooltip.left.isSome = true ∧
        (_animateMove env layout obj).tooltip.right = none) ↔
      horizontalPosition layout (adjust env obj) = .right) ∧
    (((_animateMove env layout obj).tooltip.right.isSome = true ∧
        (_animateMove env layout obj).tooltip.left = none) ↔
      horizontalPosition layout (adjust env obj) = .left) ∧
    (obj.left + obj.width / 2 = |obj.left + obj.width / 2 - layout.width| →
      horizontalPosition layout (adjust env obj) = .right) := by
  have hh := tooltipFor_horizontal env layout (adjust env obj)
  rw [(adjust_horizontal env obj).1, (adjust_horizontal env obj).2.1] at hh
  have ht : (_animateMove env layout obj).tooltip = tooltipFor env layout (adjust env obj) := rfl
  rw [ht]
  by_cases h : obj.left + obj.width / 2 ≤ |obj.left + obj.width / 2 - layout.width|
  · obtain ⟨h1, h2, h3⟩ := hh.1 h
    refine ⟨⟨fun _ => h, fun _ => h1⟩, ⟨fun hl => ?_, fun hgt => absurd h (not_le.2 hgt)⟩,
      ⟨fun _ => h1, fun _ => ⟨by rw [h2]; rfl, h3⟩⟩, ⟨fun hr => ?_, fun hl => ?_⟩, fun _ => h1⟩
    · rw [h1] at hl
      exact absurd hl (by decide)
    · rw [h3] at hr
      exact absurd hr.1 (by simp)
    · rw [h1] at hl
      exact absurd hl (by decide)
  · obtain ⟨h1, h2, h3⟩ := hh.2 (not_le.1 h)
    refine ⟨⟨fun hr => ?_, fun hle => absurd hle h⟩, ⟨fun _ => not_le.1 h, fun _ => h1⟩,
      ⟨fun hl => ?_, fun hr => ?_⟩, ⟨fun _ => h1, fun _ => ⟨by rw [h2]; rfl, h3⟩⟩,
      fun heq => absurd (le_of_eq heq) h⟩
    · rw [h1] at hr
      exact absurd hr (by decide)
    · rw [h3] at hl
      exact absurd hl.1 (by simp)
    · rw [h1] at hr
      exact absurd hr (by decide)

/-- C8 fails on the code: in a container 200 wide a target with `left = 50`,
`width = 100` has its centre at 100, equidistant from both edges, and is
classified `'right'`: `tooltip.left` is set and `tooltip.right` is not. -/
theorem horizontal_tie_is_right :
    ((50 : ℚ) + 100 / 2 = |(50 + 100 / 2) - 200|) ∧
    horizontalPosition ⟨200, 100⟩ (adjust ⟨10, "ios", 20, false⟩ ⟨50, 80, 100, 10⟩) = .right ∧
    (_animateMove ⟨10, "ios", 20, false⟩ ⟨200, 100⟩ ⟨50, 80, 100, 10⟩).tooltip.left = some 50 ∧
    (_animateMove ⟨10, "ios", 20, false⟩ ⟨200, 100⟩ ⟨50, 80, 100, 10⟩).tooltip.right = none := by
  refine ⟨by norm_num, ?_, ?_, ?_⟩ <;>
  · simp [_animateMove, tooltipFor, adjust, verticalPosition, horizontalPosition,
      relativeToBottom, relativeToTop, relativeToLeft, relativeToRight, centerX, centerY]
    try norm_num

/-- C9, as the code has it: with a scroll view set, `setCurrentStep` on a step
whose wrapper is measured at position `y` with height `h` passes to `scrollTo`
the offset `y - h / 2` when `y > 0` and `0` otherwise. That offset is negative
exactly when `y > 0` and `h > 2 * y`; for a height `h >= 0` it equals
`max (y - h / 2) 0` exactly when `y <= 0` or `h <= 2 * y`. -/
theorem setCurrentStep_scrollTo (host : Host) (c : Copilot) (step : Step) (move : Bool)
    (sv : Nat) (hsv : c.scrollView = some sv) :
    (∃ l f, (setCurrentStep host c (.obj step) move).copilot.log =
      c.log ++ [.emitStepChange (.obj step) l f,
        .scrollTo (yOffsett (host.measureLayout step).y (host.measureLayout step).h),
        .setTimeout move 100]) ∧
    (0 < (host.measureLayout step).y →
      yOffsett (host.measureLayout step).y (host.measureLayout step).h =
        (host.measureLayout step).y - (host.measureLayout step).h / 2) ∧
    ((host.measureLayout step).y ≤ 0 →
      yOffsett (host.measureLayout step).y (host.measureLayout step).h = 0) ∧
    (yOffsett (host.measureLayout step).y (host.measureLayout step).h < 0 ↔
      0 < (host.measureLayout step).y ∧
        2 * (host.measureLayout step).y < (host.measureLayout step).h) ∧
    (0 ≤ (host.measureLayout step).h →
      (yOffsett (host.measureLayout step).y (host.measureLayout step).h =
          max ((host.measureLayout step).y - (host.measureLayout step).h / 2) 0 ↔
        (host.measureLayout step).y ≤ 0 ∨
          (host.measureLayout step).h ≤ 2 * (host.measureLayout step).y)) := by
  constructor
  · refine ⟨isLastStep host { c with currentStep := .obj step },
      isFirstStep host { c with currentStep := .obj step }, ?_⟩
    unfold setCurrentStep
    simp [emit, hsv]
  generalize (host.measureLayout step).y = y
  generalize (host.measureLayout step).h = h
  refine ⟨?_, ?_, ?_, ?_⟩
  · intro hy
    simp [yOffsett, hy]
  · intro hy
    simp [yOffsett, not_lt.2 hy]
  · unfold yOffsett
    by_cases hy : y > 0
    · rw [if_pos hy]
      constructor
      · intro hneg
        exact ⟨hy, by linarith⟩
      · intro hb
        linarith [hb.2]
    · rw [if_neg hy]
      constructor
      · intro hneg
        exact absurd hneg (lt_irrefl 0)
      · intro hb
        exact absurd hb.1 hy
  · intro hh0
    unfold yOffsett
    by_cases hy : y > 0
    · rw [if_pos hy]
      constructor
      · intro heq
        right
        have hmax : (0 : ℚ) ≤ max (y - h / 2) 0 := le_max_right _ _
        rw [← heq] at hmax
        linarith
      · intro hb
        rcases hb with hb | hb
        · exact absurd hy (not_lt.2 hb)
        · rw [max_eq_left (by linarith)]
    · rw [if_neg hy]
      constructor
      · intro _
        left
        exact not_lt.1 hy
      · intro _
        have hy0 : y ≤ 0 := not_lt.1 hy
        rw [max_eq_right (by linarith)]

/-- The amended C9 on a wrapper measured at `y = 10`, `h = 100`. -/
theorem setCurrentStep_scrollTo_witness :
    ∃ l f, (setCurrentStep (testHost 10 100) { registeredABC with scrollView := some 7 }
        (.obj stepA) true).copilot.log =
      [.emitStepChange (.obj stepA) l f, .scrollTo (yOffsett 10 100), .setTimeout true 100] :=
  (setCurrentStep_scrollTo (testHost 10 100) { registeredABC with scrollView := some 7 }
    stepA true 7 rfl).1

/-- C9 fails on the code: `start()` with a scroll view, the first wrapper measured
at `y = 10` with height `h = 100`, passes `-40` to `scrollTo`, while
`max (10 - 100 / 2) 0 = 0`. -/
theorem scroll_offset_negative :
    (start (testHost 10 100) registeredABC none (some 7)).copilot.log =
      [.emitStart, .emitStepChange (.obj stepA) false true, .scrollTo (-40),
        .setTimeout true 100, .animateMove ⟨-2, -2, 4, 4⟩] ∧
    max ((10 : ℚ) - 100 / 2) 0 = 0 ∧
    yOffsett 10 100 = -40 := by
  refine ⟨?_, by norm_num, by norm_num [yOffsett]⟩
  simp [start, setCurrentStep, moveToCurrentStep, setVisibility, emit, resolveStep,
    registeredABC, testHost, yOffsett, init, componentDidMount, registerStep, isLastStep,
    isFirstStep, getFirstStep, getLastStep, objSet, stepA, stepB, stepC, MAX_START_TRIES]
  norm_num

/-- C10: for a positive `MARGIN`, the tooltip styling of `_animateMove` has exactly
one of `left` and `right`; `left` is `MARGIN` when `max left 0` is zero and
`max left 0` otherwise, `right` is `MARGIN` when
`max (layout.width - (left + width)) 0` is zero and that maximum otherwise; the
offset present is strictly positive. -/
theorem horizontal_offset (env : ModalEnv) (layout : Layout) (obj : Rect)
    (hmargin : 0 < env.MARGIN) :
    ∃ v : ℚ, 0 < v ∧
      (((_animateMove env layout obj).tooltip.left = some v ∧
          (_animateMove env layout obj).tooltip.right = none ∧
          v = (if max obj.left 0 = 0 then env.MARGIN else max obj.left 0)) ∨
        ((_animateMove env layout obj).tooltip.right = some v ∧
          (_animateMove env layout obj).tooltip.left = none ∧
          v = (if max (layout.width - (obj.left + obj.width)) 0 = 0 then env.MARGIN
            else max (layout.width - (obj.left + obj.width)) 0))) := by
  have hh := tooltipFor_horizontal env layout (adjust env obj)
  rw [(adjust_horizontal env obj).1, (adjust_horizontal env obj).2.1] at hh
  have ht : (_animateMove env layout obj).tooltip = tooltipFor env layout (adjust env obj) := rfl
  rw [ht]
  have hpos : ∀ x : ℚ, 0 < (if max x 0 = 0 then env.MARGIN else max x 0) := by
    intro x
    by_cases hx : max x 0 = 0
    · rw [if_pos hx]
      exact hmargin
    · rw [if_neg hx]
      exact lt_of_le_of_ne (le_max_right x 0) (Ne.symm hx)
  have hval : ∀ x : ℚ, (if max x 0 = 0 then max x 0 + env.MARGIN else max x 0) =
      (if max x 0 = 0 then env.MARGIN else max x 0) := by
    intro x
    by_cases hx : max x 0 = 0
    · rw [if_pos hx, if_pos hx, hx, zero_add]
    · rw [if_neg hx, if_neg hx]
  by_cases h : obj.left + obj.width / 2 ≤ |obj.left + obj.width / 2 - layout.width|
  · obtain ⟨_, h2, h3⟩ := hh.1 h
    refine ⟨_, hpos obj.left, Or.inl ⟨?_, h3, rfl⟩⟩
    rw [h2, hval]
  · obtain ⟨_, h2, h3⟩ := hh.2 (not_le.1 h)
    refine ⟨_, hpos (layout.width - (obj.left + obj.width)), Or.inr ⟨?_, h3, rfl⟩⟩
    rw [h2, hval]

/-- C10 on a target flush with the container's left edge: the offset is `MARGIN`. -/
theorem horizontal_offset_witness :
    ∃ v : ℚ, 0 < v ∧
      (((_animateMove ⟨10, "ios", 20, false⟩ ⟨200, 100⟩ ⟨0, 80, 100, 10⟩).tooltip.left = some v ∧
          (_animateMove ⟨10, "ios", 20, false⟩ ⟨200, 100⟩ ⟨0, 80, 100, 10⟩).tooltip.right = none ∧
          v = (if max (0 : ℚ) 0 = 0 then 10 else max (0 : ℚ) 0)) ∨
        ((_animateMove ⟨10, "ios", 20, false⟩ ⟨200, 100⟩ ⟨0, 80, 100, 10⟩).tooltip.right = some v ∧
          (_animateMove ⟨10, "ios", 20, false⟩ ⟨200, 100⟩ ⟨0, 80, 100, 10⟩).tooltip.left = none ∧
          v = (if max ((200 : ℚ) - (0 + 100)) 0 = 0 then 10
            else max ((200 : ℚ) - (0 + 100)) 0))) :=
  horizontal_offset ⟨10, "ios", 20, false⟩ ⟨200, 100⟩ ⟨0, 80, 100, 10⟩ (by norm_num)

end RNCopilot
